import Mathlib

/-!
Shallow embedding of the market-recap pipeline
(`StreamlitMarketReportGenerator` in `market_recap_ui_2.py`).

Python strings are modelled as `List Char`; Python `dict`s with a fixed key
set are modelled as functions or association lists; raised exceptions of
external calls are modelled with `Except`/`Option`; prices are modelled as
rationals.  Each definition is a direct translation of the corresponding
Python function noted in its doc comment.
-/

namespace MarketRecap

/-- Python strings, modelled as lists of characters. -/
abbrev Str := List Char

/-- `s.lower()`. -/
def lower (s : Str) : Str := s.map Char.toLower

/-- `s.upper()`. -/
def upper (s : Str) : Str := s.map Char.toUpper

/-- Python substring test `needle in hay`. -/
def containsSub (hay needle : Str) : Bool := decide (needle <:+: hay)

/-- Whitespace test used by `str.strip()` (the characters that occur in
practice at the ends of model responses). -/
def isSpaceChar (c : Char) : Bool := c = ' ' || c = '\n' || c = '\t' || c = '\r'

/-- Python `s.strip()`. -/
def strip (s : Str) : Str :=
  ((s.dropWhile isSpaceChar).reverse.dropWhile isSpaceChar).reverse

/-- Decimal digits of a natural number. -/
def natStr (n : Nat) : Str := Nat.toDigits 10 n

/--
A Benzinga news article (`Dict` in the Python source).  A field holds `none`
when the corresponding key is absent from the JSON object, so Python's
`article.get(key, default)` becomes `Option.getD`.  `created` is kept as the
raw provider string; parsing it (`datetime.fromisoformat`) is an external
operation passed in as a parameter where needed.
-/
structure Article where
  title : Option Str
  teaser : Option Str
  created : Option Str
  url : Option Str
deriving DecidableEq

/-- The lowercased text `f"{title} {teaser}"` that both the classifier
(`categorize_news_themes`) and the scorer (`_score_article_importance`)
build from an article. -/
def articleText (a : Article) : Str :=
  lower (a.title.getD []) ++ [' '] ++ lower (a.teaser.getD [])

/-- The fixed theme labels (keys of the `themes` dict in
`categorize_news_themes`). -/
inductive ThemeLabel where
  | earnings | fed_policy | trade_tensions | tech_developments
  | geopolitical | market_movements | deals_ma | china_sea
  | crypto | other
deriving DecidableEq

/-- Dict insertion order of the `themes` dict in `categorize_news_themes`. -/
def theme_order : List ThemeLabel :=
  [.earnings, .fed_policy, .trade_tensions, .tech_developments,
   .geopolitical, .market_movements, .deals_ma, .china_sea, .crypto, .other]

/-- `any(word in text for word in kws)`. -/
def kwMatch (kws : List Str) (text : Str) : Bool :=
  kws.any (fun w => containsSub text w)

/-- The nine keyword rules of `categorize_news_themes`, in source order.
The `other` label has no rule; it is the fallback. -/
def themeRules : List (ThemeLabel × List Str) :=
  [ (.earnings, ["earnings", "revenue", "profit", "quarterly", "eps"].map String.data),
    (.fed_policy, ["fed", "federal reserve", "interest rates", "powell", "monetary"].map String.data),
    (.trade_tensions, ["tariff", "trade war", "trade deal", "import", "export"].map String.data),
    (.tech_developments, ["ai", "artificial intelligence", "tech", "semiconductor", "chip"].map String.data),
    (.geopolitical, ["trump", "election", "government", "policy", "regulation"].map String.data),
    (.market_movements, ["surge", "plunge", "rally", "crash", "soar", "tumble"].map String.data),
    (.deals_ma, ["merger", "acquisition", "deal", "buyout", "takeover"].map String.data),
    (.china_sea, ["china", "chinese", "asia", "singapore", "hong kong"].map String.data),
    (.crypto, ["bitcoin", "crypto", "blockchain", "ethereum"].map String.data) ]

/-- The labels whose rule fires for an article: in `categorize_news_themes`
each of the nine `if any(...)` blocks appends the article to its bucket, so
per article the fired labels are the rules, in source order, whose keyword
test succeeds. -/
def matchedThemes (a : Article) : List ThemeLabel :=
  (themeRules.filter (fun r => kwMatch r.2 (articleText a))).map Prod.fst

/-- The full label list an article receives: the fired labels, or the
`other` fallback when none fired (`if not categorized`). -/
def articleThemes (a : Article) : List ThemeLabel :=
  if matchedThemes a = [] then [.other] else matchedThemes a

/-- `categorize_news_themes`: the loop appends each article to the bucket of
every label it receives, preserving input order, so bucket `t` is the
sublist of articles labelled `t`. -/
def categorize_news_themes (articles : List Article) (t : ThemeLabel) : List Article :=
  articles.filter (fun a => decide (t ∈ articleThemes a))

/-- `major_companies` in `_score_article_importance`. -/
def major_companies : List Str :=
  ["apple", "microsoft", "google", "amazon", "tesla", "meta", "nvidia"].map String.data

/-- `impact_words` in `_score_article_importance`. -/
def impact_words : List Str :=
  ["billion", "million", "record", "historic", "breakthrough", "crisis"].map String.data

/-- `urgent_words` in `_score_article_importance`. -/
def urgent_words : List Str :=
  ["breaking", "just in", "urgent", "alert"].map String.data

/--
`_score_article_importance`.  `parse` models
`datetime.fromisoformat(created.replace('Z', '+00:00'))` returning the
timestamp in seconds (`none` = the parse raised, in which case the
`try/except` skips the recency bonus).  `now` is the wall clock
`datetime.now().astimezone()` in seconds; `hours_old < 24` is
`now - created < 86400` seconds.
-/
def score_article_importance (parse : Str → Option Int) (now : Int) (a : Article) : Int :=
  let text := articleText a
  let companyScore := (major_companies.map (fun c => if containsSub text c then (5 : Int) else 0)).sum
  let impactScore := (impact_words.map (fun w => if containsSub text w then (3 : Int) else 0)).sum
  let urgentScore := (urgent_words.map (fun w => if containsSub text w then (4 : Int) else 0)).sum
  let recencyScore : Int :=
    match parse (a.created.getD []) with
    | none => 0
    | some created_time => if now - created_time < 86400 then 5 else 0
  companyScore + impactScore + urgentScore + recencyScore

/--
`extract_key_stories`: per theme bucket, pair each article with its score,
stable-sort descending by score (Python `list.sort(key=..., reverse=True)`
is a stable sort; `reverse=True` keeps equal-key elements in original
order, modelled by `mergeSort` with `y.2 ≤ x.2`), take the first `limit`.
Empty buckets get no entry in the result dict (`none`).
-/
def extract_key_stories (score : Article → Int) (themes : ThemeLabel → List Article)
    (limit : Nat) (theme : ThemeLabel) : Option (List Article) :=
  let articles := themes theme
  if articles = [] then none
  else
    let scored_articles := articles.map (fun a => (a, score a))
    let sorted := scored_articles.mergeSort (fun x y => decide (y.2 ≤ x.2))
    some ((sorted.take limit).map Prod.fst)

/-! ### Market performance aggregation -/

/-- One entry of the top-level `market_data` dict built for an index in
`get_market_data_by_range`. -/
structure PriceEntry where
  name : Str
  current_price : ℚ
  change_pct : ℚ
  start_price : ℚ
deriving DecidableEq

/-- One entry of the `sector_data` dict. -/
structure SectorEntry where
  name : Str
  change_pct : ℚ
deriving DecidableEq

/-- One entry of the `stock_data` dict. -/
structure StockEntry where
  change_pct : ℚ
  current_price : ℚ
deriving DecidableEq

/-- Python `round(x, 2)` on the (rational-modelled) price arithmetic. -/
def round2 (q : ℚ) : ℚ := (round (q * 100) : ℤ) / 100

/-- `self.market_indices` from `_setup_market_config` (ticker, display name). -/
def market_indices : List (Str × Str) :=
  [("^GSPC", "S&P 500"), ("^DJI", "Dow Jones"), ("^IXIC", "NASDAQ"), ("^RUT", "Russell 2000"),
   ("^VIX", "VIX"), ("^STOXX50E", "Euro Stoxx 50"), ("^FTSE", "FTSE 100"), ("^GDAXI", "DAX"),
   ("^FCHI", "CAC 40"), ("^HSI", "Hang Seng"), ("^N225", "Nikkei 225"), ("000001.SS", "Shanghai Composite"),
   ("^STI", "Straits Times Index"), ("EURUSD=X", "EUR/USD"), ("GBPUSD=X", "GBP/USD"),
   ("USDJPY=X", "USD/JPY"), ("USDCNY=X", "USD/CNY"), ("GC=F", "Gold"), ("CL=F", "Crude Oil"),
   ("^TNX", "10-Year Treasury")].map (fun p => (p.1.data, p.2.data))

/-- `self.sector_etfs` from `_setup_market_config`. -/
def sector_etfs : List (Str × Str) :=
  [("XLK", "Technology"), ("XLF", "Financials"), ("XLV", "Healthcare"), ("XLE", "Energy"),
   ("XLI", "Industrials"), ("XLP", "Consumer Staples"), ("XLY", "Consumer Discretionary"),
   ("XLU", "Utilities"), ("XLB", "Materials"), ("XLRE", "Real Estate"),
   ("XLC", "Communication Services")].map (fun p => (p.1.data, p.2.data))

/-- `self.major_stocks`. -/
def major_stocks : List Str :=
  ["AAPL", "MSFT", "GOOGL", "AMZN", "TSLA", "META", "NVDA", "JPM", "JNJ", "V", "WMT",
   "UNH", "HD", "PG", "MA"].map String.data

/-- `self.sea_stocks`. -/
def sea_stocks : List Str :=
  ["BABA", "JD", "TCEHY", "PDD", "BIDU", "GRAB", "SEA"].map String.data

/--
A price-history fetch (`yf.Ticker(t).history(start, end+1day)['Close']`) for
one ticker over the report's fixed date range: either the list of closing
prices in date order, or `.error ()` when the call raised.
-/
abbrev PriceFetch := Str → Except Unit (List ℚ)

/-- The body of each per-instrument `if not hist.empty and len(hist) >= 2`
block: first close, last close, percentage change. -/
def index_entry (name : Str) (hist : List ℚ) : Option PriceEntry :=
  if hist ≠ [] ∧ 2 ≤ hist.length then
    let start_price := hist.headD 0
    let end_price := hist.getLastD 0
    let change_pct := ((end_price - start_price) / start_price) * 100
    some { name := name, current_price := round2 end_price,
           change_pct := round2 change_pct, start_price := round2 start_price }
  else none

/-- Sector variant (stores only name and change). -/
def sector_entry (name : Str) (hist : List ℚ) : Option SectorEntry :=
  if hist ≠ [] ∧ 2 ≤ hist.length then
    let start_price := hist.headD 0
    let end_price := hist.getLastD 0
    let change_pct := ((end_price - start_price) / start_price) * 100
    some { name := name, change_pct := round2 change_pct }
  else none

/-- Stock variant (stores change and last close). -/
def stock_entry (hist : List ℚ) : Option StockEntry :=
  if hist ≠ [] ∧ 2 ≤ hist.length then
    let start_price := hist.headD 0
    let end_price := hist.getLastD 0
    let change_pct := ((end_price - start_price) / start_price) * 100
    some { change_pct := round2 change_pct, current_price := round2 end_price }
  else none

/-- The `try`/`except Exception: continue` wrapper around one instrument:
a raised fetch is skipped, otherwise the entry test runs. -/
def guarded {ε : Type} (mk : List ℚ → Option ε) : Except Unit (List ℚ) → Option ε
  | .error _ => none
  | .ok hist => mk hist

/-- One group loop of `get_market_data_by_range`: iterate the configured
(ticker, name) pairs in order, keep the tickers whose entry was built. -/
def buildGroup {ε : Type} (fetch : PriceFetch) (mk : Str → List ℚ → Option ε)
    (config : List (Str × Str)) : List (Str × ε) :=
  config.filterMap (fun p => (guarded (mk p.2) (fetch p.1)).map (fun e => (p.1, e)))

/-- The stock loop of `get_market_data_by_range` over
`self.major_stocks + self.sea_stocks` (plain ticker list, no display name). -/
def buildStocks (fetch : PriceFetch) (tickers : List Str) : List (Str × StockEntry) :=
  tickers.filterMap (fun t => (guarded stock_entry (fetch t)).map (fun e => (t, e)))

/-- The `market_data` dict of `get_market_data_by_range`, split into its
three disjoint parts (index tickers, the `'sectors'` value, the `'stocks'`
value). -/
structure MarketSnapshot where
  indices : List (Str × PriceEntry)
  sectors : List (Str × SectorEntry)
  stocks : List (Str × StockEntry)
deriving DecidableEq

/-- `get_market_data_by_range` (the date range is fixed per invocation and
curried into `fetch`, which receives only the ticker). -/
def get_market_data_by_range (fetch : PriceFetch) : MarketSnapshot :=
  { indices := buildGroup fetch index_entry market_indices,
    sectors := buildGroup fetch sector_entry sector_etfs,
    stocks := buildStocks fetch (major_stocks ++ sea_stocks) }

/-- First-match association lookup (Python `dict` access by key; keys in the
configuration lists are distinct). -/
def assocFind {β : Type} (k : Str) : List (Str × β) → Option β
  | [] => none
  | p :: rest => if p.1 = k then some p.2 else assocFind k rest

/-! ### News fetch boundary -/

/--
`_make_benzinga_request`.  `http` models `urlopen` + `json.loads`:
`.error ()` when the request or parse raised (the `except` branch shows a
UI error and returns `[]`); `.ok none` when the parsed JSON is not a list
(`isinstance` guard returns `[]`); `.ok (some arts)` the article list.
-/
def make_benzinga_request (http : Except Unit (Option (List Article))) : List Article :=
  match http with
  | .error _ => []
  | .ok none => []
  | .ok (some result) => result

/-! ### Language-generation boundary, report builder, translator -/

/--
A language-generation service (`openai_client.chat.completions.create`):
argument 0 is the index of the request within one builder invocation,
then the system message and the user message; `.error ()` models a raised
call.
-/
abbrev GenService := Nat → Str → Str → Except Unit Str

/-- Signed two-decimal rendering `f"{x:+.2f}"` of a rational. -/
def fmtSigned2 (q : ℚ) : Str :=
  let n : ℤ := round (q * 100)
  let sign : Str := if n < 0 then "-".data else "+".data
  let m := n.natAbs
  let frac := m % 100
  sign ++ natStr (m / 100) ++ ".".data ++ (if frac < 10 then '0' :: natStr frac else natStr frac)

/-- `_create_performance_summary`, as the list of lines later joined with
newlines.  `date_range` is the pre-rendered `strftime` text. -/
def create_performance_summary (market_data : MarketSnapshot) (date_range : Str) : List Str :=
  (("MARKET PERFORMANCE (".data ++ date_range ++ "):".data) ::
    market_data.indices.map (fun p => "• ".data ++ p.2.name ++ ": ".data ++ fmtSigned2 p.2.change_pct ++ "%".data))
  ++ (("\nSECTOR PERFORMANCE (".data ++ date_range ++ "):".data) ::
    (market_data.sectors.mergeSort (fun x y => decide (y.2.change_pct ≤ x.2.change_pct))).map
      (fun p => "• ".data ++ p.2.name ++ ": ".data ++ fmtSigned2 p.2.change_pct ++ "%".data))
  ++ (("\nNOTABLE STOCK MOVEMENTS (".data ++ date_range ++ "):".data) ::
    ((market_data.stocks.mergeSort (fun x y => decide (|y.2.change_pct| ≤ |x.2.change_pct|))).take 10).map
      (fun p => "• ".data ++ p.1 ++ ": ".data ++ fmtSigned2 p.2.change_pct ++ "%".data))

/-- The display names `theme_names` in `_create_news_summary_with_sources`. -/
def theme_display : ThemeLabel → Str
  | .earnings => "Earnings Reports".data
  | .fed_policy => "Federal Reserve & Monetary Policy".data
  | .trade_tensions => "Trade & Tariffs".data
  | .tech_developments => "Technology Developments".data
  | .geopolitical => "Geopolitical Events".data
  | .market_movements => "Major Market Movements".data
  | .deals_ma => "Mergers & Acquisitions".data
  | .china_sea => "China & Asia-Pacific".data
  | .crypto => "Cryptocurrency".data
  | .other => "Other Notable News".data

/-- The seven lines appended for entry number `i` (1-based) in
`_create_news_summary_with_sources`, including the 200-character teaser
truncation. -/
def entry_lines (i : Nat) (a : Article) : List Str :=
  let title := a.title.getD "No title".data
  let teaser0 := a.teaser.getD []
  let teaser := if 200 < teaser0.length then teaser0.take 200 ++ "...".data else teaser0
  let created := a.created.getD "Date unknown".data
  let url := a.url.getD "No URL available".data
  [ natStr i ++ ". TITLE: ".data ++ title,
    "   DATE: ".data ++ created,
    "   SUMMARY: ".data ++ teaser,
    "   SOURCE: Benzinga".data,
    "   FULL ARTICLE: ".data ++ url,
    "   DISCLAIMER: This is a third-party news source. Please verify independently.".data,
    [] ]

/-- One theme block of `_create_news_summary_with_sources`: the uppercased
header line, then the lines of `enumerate(articles[:3], 1)`. -/
def newsThemeSection (t : ThemeLabel) (articles : List Article) : List Str :=
  (('\n' :: upper (theme_display t)) ++ ":".data) ::
    (((articles.take 3).enumFrom 1).map (fun p => entry_lines p.1 p.2)).flatten

/-- `_create_news_summary_with_sources` as its list of lines: iterate the
`key_stories` dict in theme insertion order, skipping absent and empty
buckets. -/
def news_summary_lines (key_stories : ThemeLabel → Option (List Article)) : List Str :=
  (theme_order.map (fun t =>
    match key_stories t with
    | none => []
    | some articles => if articles = [] then [] else newsThemeSection t articles)).flatten

/-- `_create_news_summary_with_sources` (the `"\n".join(summary)` result). -/
def create_news_summary_with_sources (key_stories : ThemeLabel → Option (List Article)) : Str :=
  List.intercalate "\n".data (news_summary_lines key_stories)

/-- The fixed system prompt of `generate_market_report`. -/
def report_system_prompt : Str :=
  ("You are a senior financial market analyst writing a professional market insights report for institutional clients. "
   ++ "CRITICAL INSTRUCTIONS - COMPLIANCE & ACCURACY: Use ONLY the provided market data and news articles. "
   ++ "ALWAYS include source links for any news references in your analysis. "
   ++ "When mentioning news stories, format as: According to Benzinga [insert URL], [story details]. "
   ++ "Add clear disclaimers that news content comes from third-party sources. "
   ++ "Write with authority but acknowledge information sources transparently. "
   ++ "Focus on analysis and interpretation rather than republishing news content. "
   ++ "Maintain professional tone suitable for institutional clients. "
   ++ "COMPLIANCE REQUIREMENTS: Include source attribution for all news references. "
   ++ "Add disclaimers about third-party content. Focus on data analysis rather than news republication. "
   ++ "Ensure readers can verify original sources independently.").data

/-- The user prompt of `generate_market_report`, embedding the two rendered
blocks and the date range. -/
def report_user_prompt (date_range performance_summary news_summary : Str) : Str :=
  ("Generate a comprehensive market insights report for the period ".data ++ date_range
   ++ ": MARKET PERFORMANCE DATA (Verified): ".data ++ performance_summary
   ++ " KEY NEWS DEVELOPMENTS WITH SOURCES: ".data ++ news_summary
   ++ (" COMPLIANCE INSTRUCTIONS: For any news story mentioned, include the source URL from the data above. "
   ++ "Use format: According to Benzinga (URL), [brief summary]. "
   ++ "Add disclaimer: Readers should verify information independently from original sources. "
   ++ "Focus on analytical insights rather than republishing full news content. "
   ++ "Structure the report with these sections: 1. Executive Summary (3-4 key themes with source links) "
   ++ "2. Market Performance Analysis (indices, sectors, notable movements) "
   ++ "3. Key Developments During Period (major themes with source links and disclaimers) "
   ++ "4. Notable Stock Movements (significant performers with context) "
   ++ "5. Market Outlook (forward-looking analysis based on trends) "
   ++ "6. Sources & Disclaimers (comprehensive source list and compliance notices) "
   ++ "Target length: 1200-1500 words. Write for sophisticated investors expecting actionable intelligence with full transparency.").data)

/--
`generate_market_report`.  Renders both summary blocks, issues exactly one
request (request index 0) to the service, and on a raised call shows a UI
error and returns the literal string `"Error generating market report"`.
The second component counts the requests issued during the invocation.
-/
def generate_market_report (complete : GenService) (market_data : MarketSnapshot)
    (key_stories : ThemeLabel → Option (List Article)) (date_range : Str) : Str × Nat :=
  let performance_summary := List.intercalate "\n".data (create_performance_summary market_data date_range)
  let news_summary := create_news_summary_with_sources key_stories
  let user_prompt := report_user_prompt date_range performance_summary news_summary
  match complete 0 report_system_prompt user_prompt with
  | .ok response => (strip response, 1)
  | .error _ => ("Error generating market report".data, 1)

/-- The `language_map` dict in `translate_content`. -/
def language_map : List (Str × Str) :=
  [("Thai", "Thai"), ("Simplified Chinese", "Simplified Chinese"),
   ("Traditional Chinese", "Traditional Chinese"),
   ("Vietnamese", "Vietnamese")].map (fun p => (p.1.data, p.2.data))

/-- The translator system message (an f-string over the mapped language). -/
def translator_system_prompt (lang : Str) : Str :=
  "You are a professional financial translator. Translate the following market report to ".data
  ++ lang ++ " while maintaining professional tone and financial accuracy.".data

/--
`translate_content`.  Base language short-circuits before the `try` block
(no request).  Inside the `try`, `language_map[target_language]` raises
`KeyError` for unmapped languages (caught, original content returned, no
request); otherwise one request is issued and a raised call returns the
original content.  The second component counts requests issued.
-/
def translate_content (complete : GenService) (content : Str) (target_language : Str) : Str × Nat :=
  if target_language = "English".data then (content, 0)
  else
    match assocFind target_language language_map with
    | none => (content, 0)
    | some lang =>
      match complete 0 (translator_system_prompt lang) content with
      | .ok response => (strip response, 1)
      | .error _ => (content, 1)

/-! ### The `main` pipeline -/

/-- The distinct user-visible outcomes of one generation run in `main`:
the date-validation error box (start not strictly before end), the
"no articles found" warning box, or a finished report. -/
inductive Outcome where
  | invalidRange
  | noArticles
  | report (content : Str)
deriving DecidableEq

/--
The generation flow of `main`: the date check `start_date >= end_date`
aborts before any fetch; then market data, then the bulk news fetch; an
empty article list aborts before analysis and report generation; otherwise
classify, extract (with the configured stories-per-theme limit), generate,
and optionally translate.  Dates are day ordinals; `date_range` is the
pre-rendered `strftime` text.
-/
def runPipeline (start_date end_date : Int) (fetch : PriceFetch)
    (newsHttp : Except Unit (Option (List Article)))
    (complete translate_svc : GenService) (parse : Str → Option Int) (now : Int)
    (themes_limit : Nat) (language : Str) (date_range : Str) : Outcome :=
  if end_date ≤ start_date then .invalidRange
  else
    let market_data := get_market_data_by_range fetch
    let articles := make_benzinga_request newsHttp
    if articles = [] then .noArticles
    else
      let themes := categorize_news_themes articles
      let key_stories := extract_key_stories (score_article_importance parse now) themes themes_limit
      let report_content := (generate_market_report complete market_data key_stories date_range).1
      let final_content :=
        if language = "English".data then report_content
        else (translate_content translate_svc report_content language).1
      .report final_content

/-! ## Helper lemmas -/

theorem mem_matchedThemes (a : Article) (t : ThemeLabel) :
    t ∈ matchedThemes a ↔
      ∃ kws, (t, kws) ∈ themeRules ∧ kwMatch kws (articleText a) = true := by
  unfold matchedThemes
  simp only [List.mem_map, List.mem_filter]
  constructor
  · rintro ⟨⟨t', kws⟩, ⟨hmem, hmatch⟩, rfl⟩
    exact ⟨kws, hmem, hmatch⟩
  · rintro ⟨kws, hmem, hmatch⟩
    exact ⟨(t, kws), ⟨hmem, hmatch⟩, rfl⟩

theorem matchedThemes_eq_nil (a : Article) :
    matchedThemes a = [] ↔
      ∀ t kws, (t, kws) ∈ themeRules → kwMatch kws (articleText a) = false := by
  unfold matchedThemes
  rw [List.map_eq_nil_iff, List.filter_eq_nil_iff]
  constructor
  · intro h t kws hmem
    have := h (t, kws) hmem
    simpa using this
  · intro h r hmem
    have := h r.1 r.2 hmem
    simp [this]

theorem assocFind_cons_ne {β : Type} (k : Str) (p : Str × β) (l : List (Str × β))
    (h : p.1 ≠ k) : assocFind k (p :: l) = assocFind k l := by
  simp [assocFind, h]

theorem assocFind_cons_self {β : Type} (k : Str) (e : β) (l : List (Str × β)) :
    assocFind k ((k, e) :: l) = some e := by
  simp [assocFind]

theorem assocFind_buildGroup_not_mem {ε : Type} (fetch : PriceFetch)
    (mk : Str → List ℚ → Option ε) (t : Str) :
    ∀ (config : List (Str × Str)), t ∉ config.map Prod.fst →
    assocFind t (buildGroup fetch mk config) = none := by
  intro config
  induction config with
  | nil => intro _; rfl
  | cons p rest ih =>
    intro h
    simp only [List.map_cons, List.mem_cons, not_or] at h
    obtain ⟨h1, h2⟩ := h
    cases hres : guarded (mk p.2) (fetch p.1) with
    | none =>
      simpa [buildGroup, List.filterMap_cons, hres] using ih h2
    | some e =>
      simp only [buildGroup, List.filterMap_cons, hres, Option.map_some']
      rw [assocFind_cons_ne t (p.1, e) _ (fun e' => h1 e'.symm)]
      exact ih h2

theorem assocFind_buildGroup {ε : Type} (fetch : PriceFetch)
    (mk : Str → List ℚ → Option ε) (t n : Str) :
    ∀ (config : List (Str × Str)), (config.map Prod.fst).Nodup → (t, n) ∈ config →
    assocFind t (buildGroup fetch mk config) = guarded (mk n) (fetch t) := by
  intro config
  induction config with
  | nil => intro _ h; cases h
  | cons p rest ih =>
    intro hnd hmem
    simp only [List.map_cons, List.nodup_cons] at hnd
    obtain ⟨hp, hnd'⟩ := hnd
    rcases List.mem_cons.mp hmem with heq | hmem'
    · subst heq
      cases hres : guarded (mk n) (fetch t) with
      | none =>
        simp only [buildGroup, List.filterMap_cons, hres, Option.map_none']
        exact assocFind_buildGroup_not_mem fetch mk t rest hp
      | some e =>
        simp only [buildGroup, List.filterMap_cons, hres, Option.map_some']
        exact assocFind_cons_self t e _
    · have ht : t ∈ rest.map Prod.fst := List.mem_map.mpr ⟨(t, n), hmem', rfl⟩
      have hne : p.1 ≠ t := fun e => hp (e ▸ ht)
      cases hres : guarded (mk p.2) (fetch p.1) with
      | none =>
        simpa [buildGroup, List.filterMap_cons, hres] using ih hnd' hmem'
      | some e =>
        simp only [buildGroup, List.filterMap_cons, hres, Option.map_some']
        rw [assocFind_cons_ne t (p.1, e) _ hne]
        exact ih hnd' hmem'

theorem assocFind_buildStocks_not_mem (fetch : PriceFetch) (t : Str) :
    ∀ (tickers : List Str), t ∉ tickers →
    assocFind t (buildStocks fetch tickers) = none := by
  intro tickers
  induction tickers with
  | nil => intro _; rfl
  | cons s rest ih =>
    intro h
    simp only [List.mem_cons, not_or] at h
    obtain ⟨h1, h2⟩ := h
    cases hres : guarded stock_entry (fetch s) with
    | none =>
      simpa [buildStocks, List.filterMap_cons, hres] using ih h2
    | some e =>
      simp only [buildStocks, List.filterMap_cons, hres, Option.map_some']
      rw [assocFind_cons_ne t (s, e) _ (fun e' => h1 e'.symm)]
      exact ih h2

theorem assocFind_buildStocks (fetch : PriceFetch) (t : Str) :
    ∀ (tickers : List Str), tickers.Nodup → t ∈ tickers →
    assocFind t (buildStocks fetch tickers) = guarded stock_entry (fetch t) := by
  intro tickers
  induction tickers with
  | nil => intro _ h; cases h
  | cons s rest ih =>
    intro hnd hmem
    simp only [List.nodup_cons] at hnd
    obtain ⟨hp, hnd'⟩ := hnd
    rcases List.mem_cons.mp hmem with rfl | hmem'
    · cases hres : guarded stock_entry (fetch t) with
      | none =>
        simp only [buildStocks, List.filterMap_cons, hres, Option.map_none']
        exact assocFind_buildStocks_not_mem fetch t rest hp
      | some e =>
        simp only [buildStocks, List.filterMap_cons, hres, Option.map_some']
        exact assocFind_cons_self t e _
    · have hne : s ≠ t := fun e => hp (e ▸ hmem')
      cases hres : guarded stock_entry (fetch s) with
      | none =>
        simpa [buildStocks, List.filterMap_cons, hres] using ih hnd' hmem'
      | some e =>
        simp only [buildStocks, List.filterMap_cons, hres, Option.map_some']
        rw [assocFind_cons_ne t (s, e) _ hne]
        exact ih hnd' hmem'

theorem sum_map_ite {α : Type} (p : α → Bool) (k : Int) :
    ∀ l : List α, (l.map (fun x => if p x then k else 0)).sum = k * (l.countP p : Int) := by
  intro l
  induction l with
  | nil => simp
  | cons a l ih =>
    cases h : p a with
    | true =>
      simp [h, ih, List.countP_cons, mul_add]
      ring
    | false => simp [h, ih, List.countP_cons]

/-! ## Claims -/

/-- **C2.** The theme classifier is exact multi-label matching: an article
receives a label iff one of that label's keywords occurs (case-insensitive
substring) in the concatenated title and teaser, except that an article
matching no rule receives exactly the `other` fallback; bucket `t` of
`categorize_news_themes` holds exactly the input articles labelled `t`;
and the article "Fed signals new tariffs on China imports" receives exactly
`fed_policy`, `trade_tensions`, `china_sea`. -/
theorem classifier_multilabel_exact :
    (∀ (a : Article) (t : ThemeLabel),
        t ∈ articleThemes a ↔
          ((∃ kws, (t, kws) ∈ themeRules ∧ kwMatch kws (articleText a) = true)
            ∨ (t = .other ∧ ∀ t' kws', (t', kws') ∈ themeRules →
                 kwMatch kws' (articleText a) = false)))
    ∧ (∀ (arts : List Article) (a : Article) (t : ThemeLabel),
        a ∈ categorize_news_themes arts t ↔ a ∈ arts ∧ t ∈ articleThemes a)
    ∧ articleThemes { title := some "Fed signals new tariffs on China imports".data,
                      teaser := some [], created := none, url := none }
        = [.fed_policy, .trade_tensions, .china_sea] := by
  refine ⟨?_, ?_, by decide⟩
  · intro a t
    unfold articleThemes
    by_cases h : matchedThemes a = []
    · rw [if_pos h]
      have hnone := (matchedThemes_eq_nil a).mp h
      simp only [List.mem_singleton]
      constructor
      · rintro rfl
        exact Or.inr ⟨rfl, hnone⟩
      · rintro (⟨kws, hmem, hmatch⟩ | ⟨rfl, -⟩)
        · exact absurd (hnone t kws hmem) (by simp [hmatch])
        · rfl
    · rw [if_neg h]
      rw [mem_matchedThemes]
      constructor
      · exact Or.inl
      · rintro (hl | ⟨rfl, hnone⟩)
        · exact hl
        · exact absurd ((matchedThemes_eq_nil a).mpr hnone) h
  · intro arts a t
    unfold categorize_news_themes
    simp [List.mem_filter]

/-- **C3.** For every theme bucket map and limit `K`: an empty bucket gets
no entry in the key-story map; a non-empty bucket maps to the first `K`
elements of a reordering of the bucket that is sorted by descending score
and keeps equal-scored articles in original bucket (fetch) order; and no
returned sequence exceeds `K` articles. -/
theorem extractor_topk_stable :
    ∀ (score : Article → Int) (themes : ThemeLabel → List Article)
      (limit : Nat) (t : ThemeLabel),
      (themes t = [] → extract_key_stories score themes limit t = none)
      ∧ (themes t ≠ [] → ∃ sortedArts : List Article,
          extract_key_stories score themes limit t = some (sortedArts.take limit)
          ∧ sortedArts.Perm (themes t)
          ∧ sortedArts.Pairwise (fun a b => score b ≤ score a)
          ∧ ∀ a b, score a = score b → [a, b].Sublist (themes t) → [a, b].Sublist sortedArts)
      ∧ (∀ l, extract_key_stories score themes limit t = some l → l.length ≤ limit) := by
  intro score themes limit t
  have htrans : ∀ (x y z : Article × Int),
      (fun x y : Article × Int => decide (y.2 ≤ x.2)) x y →
      (fun x y : Article × Int => decide (y.2 ≤ x.2)) y z →
      (fun x y : Article × Int => decide (y.2 ≤ x.2)) x z := by
    intro x y z
    simp only [decide_eq_true_eq]
    omega
  have htotal : ∀ (x y : Article × Int),
      ((fun x y : Article × Int => decide (y.2 ≤ x.2)) x y
        || (fun x y : Article × Int => decide (y.2 ≤ x.2)) y x) = true := by
    intro x y
    simp only [Bool.or_eq_true, decide_eq_true_eq]
    omega
  refine ⟨?_, ?_, ?_⟩
  · intro h
    simp [extract_key_stories, h]
  · intro h
    refine ⟨(((themes t).map (fun a => (a, score a))).mergeSort
        (fun x y => decide (y.2 ≤ x.2))).map Prod.fst, ?_, ?_, ?_, ?_⟩
    · simp [extract_key_stories, h, List.map_take]
    · have hperm := List.mergeSort_perm ((themes t).map (fun a => (a, score a)))
        (fun x y => decide (y.2 ≤ x.2))
      have h2 := hperm.map Prod.fst
      rw [List.map_map,
        show (Prod.fst ∘ fun a : Article => (a, score a)) = id from rfl,
        List.map_id] at h2
      exact h2
    · have hsorted := List.sorted_mergeSort htrans htotal
        ((themes t).map (fun a => (a, score a)))
      have hsnd : ∀ p : Article × Int,
          p ∈ ((themes t).map (fun a => (a, score a))).mergeSort
            (fun x y => decide (y.2 ≤ x.2)) → p.2 = score p.1 := by
        intro p hp
        rw [List.mem_mergeSort] at hp
        obtain ⟨a, -, rfl⟩ := List.mem_map.mp hp
        rfl
      rw [List.pairwise_map]
      refine hsorted.imp_of_mem ?_
      intro x y hx hy hxy
      have hx2 := hsnd x hx
      have hy2 := hsnd y hy
      simp only [decide_eq_true_eq] at hxy
      omega
    · intro a b hsc hsub
      have hsubscored : [(a, score a), (b, score b)].Sublist
          ((themes t).map (fun a => (a, score a))) := by
        simpa using hsub.map (fun a => (a, score a))
      have hle : (fun x y : Article × Int => decide (y.2 ≤ x.2))
          (a, score a) (b, score b) = true := by
        simp [hsc]
      have := List.pair_sublist_mergeSort htrans htotal hle hsubscored
      simpa using this.map Prod.fst
  · intro l hl
    by_cases h : themes t = []
    · simp [extract_key_stories, h] at hl
    · simp only [extract_key_stories, if_neg h, Option.some_inj] at hl
      subst hl
      simp [List.length_take]

/-- **C1.** For every configured instrument (index, sector, or stock) whose
fetched price history has at least two observations, the aggregated
snapshot records `change_pct = (end_price - start_price) / start_price * 100`
rounded to 2 decimal places; an instrument whose fetch succeeds with fewer
than two observations is omitted (no placeholder entry); and the literal
fixtures evaluate to 10.00 and 2.50. -/
theorem change_pct_rounded :
    (∀ (fetch : PriceFetch) (t n : Str) (hist : List ℚ),
        fetch t = .ok hist → 2 ≤ hist.length →
        ((t, n) ∈ market_indices →
          assocFind t (get_market_data_by_range fetch).indices =
            some { name := n, current_price := round2 (hist.getLastD 0),
                   change_pct := round2 (((hist.getLastD 0 - hist.headD 0) / hist.headD 0) * 100),
                   start_price := round2 (hist.headD 0) })
        ∧ ((t, n) ∈ sector_etfs →
          assocFind t (get_market_data_by_range fetch).sectors =
            some { name := n,
                   change_pct := round2 (((hist.getLastD 0 - hist.headD 0) / hist.headD 0) * 100) })
        ∧ (t ∈ major_stocks ++ sea_stocks →
          assocFind t (get_market_data_by_range fetch).stocks =
            some { change_pct := round2 (((hist.getLastD 0 - hist.headD 0) / hist.headD 0) * 100),
                   current_price := round2 (hist.getLastD 0) }))
    ∧ (∀ (fetch : PriceFetch) (t n : Str) (hist : List ℚ),
        fetch t = .ok hist → hist.length < 2 →
        ((t, n) ∈ market_indices → assocFind t (get_market_data_by_range fetch).indices = none)
        ∧ ((t, n) ∈ sector_etfs → assocFind t (get_market_data_by_range fetch).sectors = none)
        ∧ (t ∈ major_stocks ++ sea_stocks → assocFind t (get_market_data_by_range fetch).stocks = none))
    ∧ round2 (((110 - 100) / 100) * 100) = 10
    ∧ round2 (((4100 - 4000) / 4000) * 100) = 5 / 2 := by
  have hnd1 : (market_indices.map Prod.fst).Nodup := by decide
  have hnd2 : (sector_etfs.map Prod.fst).Nodup := by decide
  have hnd3 : (major_stocks ++ sea_stocks).Nodup := by decide
  refine ⟨?_, ?_, ?_, ?_⟩
  · intro fetch t n hist hfetch hlen
    have hne : hist ≠ [] := by
      intro e
      rw [e] at hlen
      simp at hlen
    refine ⟨?_, ?_, ?_⟩
    · intro hmem
      rw [show (get_market_data_by_range fetch).indices
          = buildGroup fetch index_entry market_indices from rfl,
        assocFind_buildGroup fetch index_entry t n market_indices hnd1 hmem,
        show guarded (index_entry n) (fetch t) = index_entry n hist from by rw [hfetch]; rfl]
      rw [index_entry, if_pos ⟨hne, hlen⟩]
    · intro hmem
      rw [show (get_market_data_by_range fetch).sectors
          = buildGroup fetch sector_entry sector_etfs from rfl,
        assocFind_buildGroup fetch sector_entry t n sector_etfs hnd2 hmem,
        show guarded (sector_entry n) (fetch t) = sector_entry n hist from by rw [hfetch]; rfl]
      rw [sector_entry, if_pos ⟨hne, hlen⟩]
    · intro hmem
      rw [show (get_market_data_by_range fetch).stocks
          = buildStocks fetch (major_stocks ++ sea_stocks) from rfl,
        assocFind_buildStocks fetch t (major_stocks ++ sea_stocks) hnd3 hmem,
        show guarded stock_entry (fetch t) = stock_entry hist from by rw [hfetch]; rfl]
      rw [stock_entry, if_pos ⟨hne, hlen⟩]
  · intro fetch t n hist hfetch hlen
    have hcond : ¬(hist ≠ [] ∧ 2 ≤ hist.length) := by
      rintro ⟨-, h2⟩
      omega
    refine ⟨?_, ?_, ?_⟩
    · intro hmem
      rw [show (get_market_data_by_range fetch).indices
          = buildGroup fetch index_entry market_indices from rfl,
        assocFind_buildGroup fetch index_entry t n market_indices hnd1 hmem,
        show guarded (index_entry n) (fetch t) = index_entry n hist from by rw [hfetch]; rfl]
      rw [index_entry, if_neg hcond]
    · intro hmem
      rw [show (get_market_data_by_range fetch).sectors
          = buildGroup fetch sector_entry sector_etfs from rfl,
        assocFind_buildGroup fetch sector_entry t n sector_etfs hnd2 hmem,
        show guarded (sector_entry n) (fetch t) = sector_entry n hist from by rw [hfetch]; rfl]
      rw [sector_entry, if_neg hcond]
    · intro hmem
      rw [show (get_market_data_by_range fetch).stocks
          = buildStocks fetch (major_stocks ++ sea_stocks) from rfl,
        assocFind_buildStocks fetch t (major_stocks ++ sea_stocks) hnd3 hmem,
        show guarded stock_entry (fetch t) = stock_entry hist from by rw [hfetch]; rfl]
      rw [stock_entry, if_neg hcond]
  · norm_num [round2, round_eq]
  · norm_num [round2, round_eq]

/-- Concrete fetch fixture: two instruments succeed with two observations,
one stock succeeds with a single observation, everything else raises. -/
def exampleFetch : PriceFetch := fun t =>
  if t = "^GSPC".data then .ok [4000, 4100]
  else if t = "XLK".data then .ok [100, 110]
  else if t = "AAPL".data then .ok [10]
  else .error ()

/-- Witness for C1 at the literal fixtures of the claim. -/
theorem change_pct_rounded_witness :
    assocFind "^GSPC".data (get_market_data_by_range exampleFetch).indices =
      some { name := "S&P 500".data, current_price := round2 4100,
             change_pct := round2 (((4100 - 4000) / 4000) * 100),
             start_price := round2 4000 }
    ∧ assocFind "XLK".data (get_market_data_by_range exampleFetch).sectors =
      some { name := "Technology".data,
             change_pct := round2 (((110 - 100) / 100) * 100) }
    ∧ assocFind "AAPL".data (get_market_data_by_range exampleFetch).stocks = none := by
  refine ⟨?_, ?_, ?_⟩
  · exact (change_pct_rounded.1 exampleFetch "^GSPC".data "S&P 500".data
      [4000, 4100] rfl (by decide)).1 (by decide)
  · exact ((change_pct_rounded.1 exampleFetch "XLK".data "Technology".data
      [100, 110] rfl (by decide)).2).1 (by decide)
  · exact ((change_pct_rounded.2.1 exampleFetch "AAPL".data [] [10]
      rfl (by decide)).2).2 (by decide)

/-- **C4.** The importance score is the purely additive sum: 5 per listed
major company occurring in the lowercased title+teaser, 3 per impact
keyword, 4 per urgency keyword, plus a flat 5 when the parsed creation
timestamp is less than 24 hours (86400 s) before the evaluation wall
clock; no normalization. -/
theorem score_purely_additive :
    ∀ (parse : Str → Option Int) (now : Int) (a : Article) (c : Int),
      parse (a.created.getD []) = some c →
      score_article_importance parse now a =
        5 * (major_companies.countP (fun w => containsSub (articleText a) w) : Int)
        + 3 * (impact_words.countP (fun w => containsSub (articleText a) w) : Int)
        + 4 * (urgent_words.countP (fun w => containsSub (articleText a) w) : Int)
        + (if now - c < 86400 then 5 else 0) := by
  intro parse now a c h
  simp only [score_article_importance, h, sum_map_ite]

/-- Witness for C4: a concrete fresh article mentioning one major company
and one impact keyword scores 5 + 3 + 0 + 5 = 13. -/
theorem score_purely_additive_witness :
    score_article_importance (fun _ => some 0) 1000
      { title := some "Apple hits record high".data, teaser := none,
        created := some "2026-01-01T00:00:00Z".data, url := none } = 13 := by
  rw [score_purely_additive (fun _ => some 0) 1000
    { title := some "Apple hits record high".data, teaser := none,
      created := some "2026-01-01T00:00:00Z".data, url := none } 0 rfl]
  decide

/-- Three-instrument configuration for the C5 scenario. -/
def scenarioConfig : List (Str × Str) :=
  [("AAA", "Index A"), ("BBB", "Index B"),
   ("CCC", "Index C")].map (fun p => (p.1.data, p.2.data))

/-- Fetch that raises a transport error for the middle instrument only. -/
def scenarioFetch : PriceFetch := fun t =>
  if t = "BBB".data then .error () else .ok [1, 2]

/-- **C5.** Per-instrument fetch failures and short histories are soft: a
configured instrument appears in the snapshot iff its fetch succeeded with
at least two observations (so failures are skipped and nothing
propagates); when every fetch raises, the snapshot is still produced with
all three group maps present and empty; and with three configured
instruments of which one raises, the group holds exactly the other two. -/
theorem soft_failure_skip :
    (∀ (fetch : PriceFetch),
      (∀ t n, (t, n) ∈ market_indices →
        ((assocFind t (get_market_data_by_range fetch).indices).isSome = true ↔
          ∃ hist, fetch t = .ok hist ∧ 2 ≤ hist.length))
      ∧ (∀ t n, (t, n) ∈ sector_etfs →
        ((assocFind t (get_market_data_by_range fetch).sectors).isSome = true ↔
          ∃ hist, fetch t = .ok hist ∧ 2 ≤ hist.length))
      ∧ (∀ t, t ∈ major_stocks ++ sea_stocks →
        ((assocFind t (get_market_data_by_range fetch).stocks).isSome = true ↔
          ∃ hist, fetch t = .ok hist ∧ 2 ≤ hist.length))
      ∧ ((∀ t, fetch t = .error ()) →
          get_market_data_by_range fetch = { indices := [], sectors := [], stocks := [] }))
    ∧ (buildGroup scenarioFetch index_entry scenarioConfig).map Prod.fst
        = ["AAA".data, "CCC".data] := by
  have hnd1 : (market_indices.map Prod.fst).Nodup := by decide
  have hnd2 : (sector_etfs.map Prod.fst).Nodup := by decide
  have hnd3 : (major_stocks ++ sea_stocks).Nodup := by decide
  have key : ∀ {ε : Type} (mk : List ℚ → Option ε) (fetch : PriceFetch) (t : Str),
      (∀ hist, hist ≠ [] → 2 ≤ hist.length → (mk hist).isSome = true) →
      (∀ hist, ¬(hist ≠ [] ∧ 2 ≤ hist.length) → mk hist = none) →
      ((guarded mk (fetch t)).isSome = true ↔
        ∃ hist, fetch t = .ok hist ∧ 2 ≤ hist.length) := by
    intro ε mk fetch t hpos hneg
    cases hf : fetch t with
    | error e =>
      simp [guarded]
    | ok hist =>
      simp only [guarded]
      constructor
      · intro h
        refine ⟨hist, rfl, ?_⟩
        by_contra hlt
        rw [hneg hist (by tauto)] at h
        simp at h
      · rintro ⟨hist', heq, hlen⟩
        obtain rfl : hist = hist' := by
          simpa using heq
        have hne : hist ≠ [] := by
          intro e
          rw [e] at hlen
          simp at hlen
        exact hpos hist hne hlen
  refine ⟨?_, by rfl⟩
  intro fetch
  refine ⟨?_, ?_, ?_, ?_⟩
  · intro t n hmem
    rw [show (get_market_data_by_range fetch).indices
        = buildGroup fetch index_entry market_indices from rfl,
      assocFind_buildGroup fetch index_entry t n market_indices hnd1 hmem]
    refine key (index_entry n) fetch t ?_ ?_
    · intro hist hne hlen
      rw [index_entry, if_pos ⟨hne, hlen⟩]
      rfl
    · intro hist hcond
      rw [index_entry, if_neg hcond]
  · intro t n hmem
    rw [show (get_market_data_by_range fetch).sectors
        = buildGroup fetch sector_entry sector_etfs from rfl,
      assocFind_buildGroup fetch sector_entry t n sector_etfs hnd2 hmem]
    refine key (sector_entry n) fetch t ?_ ?_
    · intro hist hne hlen
      rw [sector_entry, if_pos ⟨hne, hlen⟩]
      rfl
    · intro hist hcond
      rw [sector_entry, if_neg hcond]
  · intro t hmem
    rw [show (get_market_data_by_range fetch).stocks
        = buildStocks fetch (major_stocks ++ sea_stocks) from rfl,
      assocFind_buildStocks fetch t (major_stocks ++ sea_stocks) hnd3 hmem]
    refine key stock_entry fetch t ?_ ?_
    · intro hist hne hlen
      rw [stock_entry, if_pos ⟨hne, hlen⟩]
      rfl
    · intro hist hcond
      rw [stock_entry, if_neg hcond]
  · intro hfail
    simp only [get_market_data_by_range, buildGroup, buildStocks, MarketSnapshot.mk.injEq]
    refine ⟨?_, ?_, ?_⟩ <;>
    · rw [List.filterMap_eq_nil_iff]
      intro p _
      rw [hfail]
      rfl

/-- Witness for C5: with the example fetch, S&P 500 is present (its fetch
succeeded with two points) and every sector other than XLK fails softly,
e.g. XLF is absent without any error. -/
theorem soft_failure_skip_witness :
    (assocFind "^GSPC".data (get_market_data_by_range exampleFetch).indices).isSome = true
    ∧ (assocFind "XLF".data (get_market_data_by_range exampleFetch).sectors).isSome ≠ true := by
  constructor
  · exact ((soft_failure_skip.1 exampleFetch).1 "^GSPC".data "S&P 500".data
      (by decide)).mpr ⟨[4000, 4100], rfl, by decide⟩
  · intro h
    have := ((soft_failure_skip.1 exampleFetch).2.1 "XLF".data "Financials".data
      (by decide)).mp h
    obtain ⟨hist, heq, -⟩ := this
    simp [exampleFetch] at heq

/-- **C6.** When the start date is not strictly before the end date the run
aborts immediately with the invalid-range outcome, and the result is
independent of every data source and service (no pipeline work); when
start < end that failure never occurs. -/
theorem invalid_range_aborts :
    ∀ (s e : Int) (fetch fetch' : PriceFetch)
      (news news' : Except Unit (Option (List Article)))
      (complete complete' tsvc tsvc' : GenService)
      (parse parse' : Str → Option Int) (now now' : Int) (k k' : Nat)
      (lang lang' dr dr' : Str),
      (e ≤ s →
        runPipeline s e fetch news complete tsvc parse now k lang dr = .invalidRange
        ∧ runPipeline s e fetch news complete tsvc parse now k lang dr
          = runPipeline s e fetch' news' complete' tsvc' parse' now' k' lang' dr')
      ∧ (s < e →
        runPipeline s e fetch news complete tsvc parse now k lang dr ≠ .invalidRange) := by
  intro s e fetch fetch' news news' complete complete' tsvc tsvc'
    parse parse' now now' k k' lang lang' dr dr'
  constructor
  · intro h
    exact ⟨by simp [runPipeline, h], by simp [runPipeline, h]⟩
  · intro h
    have h2 : ¬e ≤ s := by omega
    simp only [runPipeline, if_neg h2]
    by_cases ha : make_benzinga_request news = []
    · simp [ha]
    · simp [ha]

/-- Witness for C6: a reversed range aborts with the invalid-range outcome,
a proper range does not. -/
theorem invalid_range_aborts_witness :
    runPipeline 5 3 (fun _ => .error ()) (.ok none) (fun _ _ _ => .error ())
      (fun _ _ _ => .error ()) (fun _ => none) 0 3 "English".data []
      = .invalidRange
    ∧ runPipeline 3 5 (fun _ => .error ()) (.ok none) (fun _ _ _ => .error ())
      (fun _ _ _ => .error ()) (fun _ => none) 0 3 "English".data []
      ≠ .invalidRange := by
  constructor
  · exact (invalid_range_aborts 5 3 (fun _ => .error ()) (fun _ => .error ())
      (.ok none) (.ok none) (fun _ _ _ => .error ()) (fun _ _ _ => .error ())
      (fun _ _ _ => .error ()) (fun _ _ _ => .error ()) (fun _ => none) (fun _ => none)
      0 0 3 3 "English".data "English".data [] []).1 (by omega) |>.1
  · exact (invalid_range_aborts 3 5 (fun _ => .error ()) (fun _ => .error ())
      (.ok none) (.ok none) (fun _ _ _ => .error ()) (fun _ _ _ => .error ())
      (fun _ _ _ => .error ()) (fun _ _ _ => .error ()) (fun _ => none) (fun _ => none)
      0 0 3 3 "English".data "English".data [] []).2 (by omega)

/-- C7 counterexample: when the generation service raises, the builder's
result is the ordinary string "Error generating market report" — the very
output an ordinary successful service returning that text produces — so no
distinct error outcome reaches the caller. -/
theorem report_failure_not_distinct :
    (generate_market_report (fun _ _ _ => .error ())
      { indices := [], sectors := [], stocks := [] } (fun _ => none) []).1
      = (generate_market_report (fun _ _ _ => .ok "Error generating market report".data)
        { indices := [], sectors := [], stocks := [] } (fun _ => none) []).1
    ∧ (generate_market_report (fun _ _ _ => .error ())
      { indices := [], sectors := [], stocks := [] } (fun _ => none) []).1
      = "Error generating market report".data := by
  constructor
  · rfl
  · rfl

/-- **C7** (amended). When the generation service fails during report
synthesis the builder returns the fixed sentinel text "Error generating
market report" as an ordinary report string (no distinct error outcome),
and it issues exactly one request with no retry (the result depends only on
request 0). -/
theorem report_failure_sentinel_no_retry :
    ∀ (complete : GenService) (md : MarketSnapshot)
      (ks : ThemeLabel → Option (List Article)) (dr : Str),
      ((∀ s u, complete 0 s u = .error ()) →
        (generate_market_report complete md ks dr).1
          = "Error generating market report".data)
      ∧ (generate_market_report complete md ks dr).2 = 1
      ∧ (∀ (complete' : GenService), (∀ s u, complete 0 s u = complete' 0 s u) →
          generate_market_report complete md ks dr
            = generate_market_report complete' md ks dr) := by
  intro complete md ks dr
  refine ⟨?_, ?_, ?_⟩
  · intro h
    simp only [generate_market_report, h]
  · simp only [generate_market_report]
    cases complete 0 report_system_prompt
      (report_user_prompt dr
        (List.intercalate "\n".data (create_performance_summary md dr))
        (create_news_summary_with_sources ks)) <;> rfl
  · intro complete' h
    simp only [generate_market_report, h]

/-- Witness for the amended C7 at a concrete failing service. -/
theorem report_failure_sentinel_no_retry_witness :
    (generate_market_report (fun _ _ _ => .error ())
      { indices := [], sectors := [], stocks := [] } (fun _ => none) []).1
      = "Error generating market report".data
    ∧ (generate_market_report (fun _ _ _ => .error ())
      { indices := [], sectors := [], stocks := [] } (fun _ => none) []).2 = 1 := by
  have h := report_failure_sentinel_no_retry (fun _ _ _ => .error ())
    { indices := [], sectors := [], stocks := [] } (fun _ => none) []
  exact ⟨h.1 (fun _ _ => rfl), h.2.1⟩

/-- C8 counterexample: a transport/parsing error in the bulk news fetch
yields the same empty article list as a genuinely empty news window, so the
caller cannot distinguish an upstream outage from "no news in window". -/
theorem news_transport_error_indistinct :
    make_benzinga_request (.error ()) = make_benzinga_request (.ok (some []))
    ∧ make_benzinga_request (.error ()) = [] := ⟨rfl, rfl⟩

/-- **C8** (amended). The bulk news fetch converts transport/parsing errors
(and non-list JSON) to the empty article list — indistinguishable from an
empty window — and an empty article list halts the run before report
generation with the distinct no-articles outcome, independent of the
generation and translation services. -/
theorem news_error_empty_halts :
    ∀ (s e : Int) (fetch : PriceFetch) (complete complete' tsvc tsvc' : GenService)
      (parse : Str → Option Int) (now : Int) (k : Nat) (lang dr : Str)
      (http : Except Unit (Option (List Article))),
      (make_benzinga_request http = [] ↔
        (http = .error () ∨ http = .ok none ∨ http = .ok (some [])))
      ∧ (s < e → make_benzinga_request http = [] →
          runPipeline s e fetch http complete tsvc parse now k lang dr = .noArticles
          ∧ runPipeline s e fetch http complete tsvc parse now k lang dr
            = runPipeline s e fetch http complete' tsvc' parse now k lang dr)
      ∧ Outcome.noArticles ≠ Outcome.invalidRange
      ∧ (∀ c, Outcome.noArticles ≠ Outcome.report c) := by
  intro s e fetch complete complete' tsvc tsvc' parse now k lang dr http
  refine ⟨?_, ?_, by simp, by simp⟩
  · rcases http with e' | o
    · simp [make_benzinga_request]
    · rcases o with - | l
      · simp [make_benzinga_request]
      · simp [make_benzinga_request]
  · intro hlt hempty
    have h2 : ¬e ≤ s := by omega
    constructor
    · simp [runPipeline, if_neg h2, hempty]
    · simp [runPipeline, if_neg h2, hempty]

/-- Witness for C8: with a raising news fetch the run halts with the
no-articles outcome. -/
theorem news_error_empty_halts_witness :
    runPipeline 3 5 (fun _ => .error ()) (.error ()) (fun _ _ _ => .error ())
      (fun _ _ _ => .error ()) (fun _ => none) 0 3 "English".data []
      = .noArticles := by
  exact ((news_error_empty_halts 3 5 (fun _ => .error ()) (fun _ _ _ => .error ())
    (fun _ _ _ => .error ()) (fun _ _ _ => .error ()) (fun _ _ _ => .error ())
    (fun _ => none) 0 3 "English".data [] (.error ())).2.1 (by omega) rfl).1

/-- **C9.** The translator returns the input unchanged with no service call
for the base language "English", and for any other target language a
failing translation call yields the original text instead of an error. -/
theorem translate_base_and_degradation :
    (∀ (svc : GenService) (content : Str),
        translate_content svc content "English".data = (content, 0))
    ∧ (∀ (svc : GenService) (content lang : Str),
        lang ≠ "English".data → (∀ i sys c, svc i sys c = .error ()) →
        (translate_content svc content lang).1 = content) := by
  constructor
  · intro svc content
    simp [translate_content]
  · intro svc content lang h hsvc
    rw [translate_content, if_neg h]
    cases hm : assocFind lang language_map with
    | none => rfl
    | some l => simp [hsvc]

/-- Witness for C9 at concrete inputs: English is returned unchanged with
zero calls; a failing service for Thai degrades to the original text. -/
theorem translate_base_and_degradation_witness :
    translate_content (fun _ _ _ => .error ()) "hello".data "English".data
      = ("hello".data, 0)
    ∧ (translate_content (fun _ _ _ => .error ()) "hello".data "Thai".data).1
      = "hello".data := by
  exact ⟨translate_base_and_degradation.1 (fun _ _ _ => .error ()) "hello".data,
    translate_base_and_degradation.2 (fun _ _ _ => .error ()) "hello".data
      "Thai".data (by decide) (fun _ _ _ => rfl)⟩

theorem length_flatten_const {α β : Type} (f : α → List β) (k : Nat)
    (hk : ∀ a, (f a).length = k) :
    ∀ l : List α, ((l.map f).flatten).length = k * l.length := by
  intro l
  induction l with
  | nil => simp
  | cons a l ih =>
    simp only [List.map_cons, List.flatten_cons, List.length_append, hk, ih,
      List.length_cons]
    ring

/-- Title-only article constructor for fixtures. -/
def mkArt (s : String) : Article :=
  { title := some s.data, teaser := none, created := none, url := none }

/-- Five pairwise distinct articles for the C10 scenario. -/
def fiveArts : List Article :=
  ["quarterly one", "quarterly two", "quarterly three", "quarterly four",
   "quarterly five"].map mkArt

/-- Theme map holding a five-article earnings bucket. -/
def fiveThemes : ThemeLabel → List Article :=
  fun t => if t = .earnings then fiveArts else []

/-- **C10.** The prompt-side news renderer keeps at most 3 entries per
theme: a theme section equals the section of the bucket's first three
articles and has exactly `1 + 7 * min 3 n` lines (7 lines per rendered
entry, so never more than 3 entries); the full summary is unchanged when
every bucket is truncated to 3; and a 5-article bucket produced by the
extractor with `K = 5` renders only 3 entries (22 lines). -/
theorem renderer_caps_three :
    (∀ (t : ThemeLabel) (articles : List Article),
        newsThemeSection t articles = newsThemeSection t (articles.take 3))
    ∧ (∀ (t : ThemeLabel) (articles : List Article),
        (newsThemeSection t articles).length = 1 + 7 * min 3 articles.length)
    ∧ (∀ (stories : ThemeLabel → Option (List Article)),
        news_summary_lines stories
          = news_summary_lines (fun t => (stories t).map (fun l => l.take 3)))
    ∧ (∃ arts : List Article,
        extract_key_stories (fun _ => 0) fiveThemes 5 .earnings = some arts
        ∧ arts.length = 5
        ∧ (newsThemeSection .earnings arts).length = 22) := by
  have hsec : ∀ (t : ThemeLabel) (articles : List Article),
      newsThemeSection t articles = newsThemeSection t (articles.take 3) := by
    intro t articles
    unfold newsThemeSection
    rw [List.take_take]
    norm_num
  refine ⟨hsec, ?_, ?_, ?_⟩
  · intro t articles
    unfold newsThemeSection
    rw [List.length_cons,
      length_flatten_const (fun p : Nat × Article => entry_lines p.1 p.2) 7 (fun p => rfl)]
    simp [List.length_take, List.enumFrom_length]
    omega
  · intro stories
    have hpt : ∀ (o : Option (List Article)) (t : ThemeLabel),
        (match o with
          | none => []
          | some articles => if articles = [] then [] else newsThemeSection t articles)
        = (match o.map (fun l => l.take 3) with
          | none => []
          | some articles => if articles = [] then [] else newsThemeSection t articles) := by
      intro o t
      cases o with
      | none => rfl
      | some l =>
        simp only [Option.map_some']
        by_cases hl : l = []
        · subst hl
          rfl
        · have hl3 : l.take 3 ≠ [] := by
            rw [Ne, List.take_eq_nil_iff]
            simp [hl]
          rw [if_neg hl, if_neg hl3]
          exact hsec t l
    unfold news_summary_lines
    congr 1
    apply List.map_congr_left
    intro t _
    exact hpt (stories t) t
  · refine ⟨fiveArts, ?_, by decide, by decide⟩
    unfold extract_key_stories
    rw [if_neg (by decide : ¬fiveThemes ThemeLabel.earnings = [])]
    show some (List.map Prod.fst (List.take 5
      ((List.map (fun a => (a, (0 : Int))) (fiveThemes ThemeLabel.earnings)).mergeSort
        (fun x y => decide (y.2 ≤ x.2))))) = some fiveArts
    rw [List.mergeSort_of_sorted (by decide)]
    decide

/-- Witness for C2: the claim's literal article evaluated through the
classifier. -/
theorem classifier_multilabel_exact_witness :
    articleThemes { title := some "Fed signals new tariffs on China imports".data,
                    teaser := some [], created := none, url := none }
      = [.fed_policy, .trade_tensions, .china_sea] :=
  classifier_multilabel_exact.2.2

/-- Witness for C3: an empty bucket produces no entry, discharged at a
concrete score function, theme map and limit. -/
theorem extractor_topk_stable_witness :
    extract_key_stories (fun _ => 0) (fun _ => []) 3 ThemeLabel.earnings = none
    ∧ ∀ l, extract_key_stories (fun _ => 0) fiveThemes 5 ThemeLabel.earnings = some l →
        l.length ≤ 5 :=
  ⟨(extractor_topk_stable (fun _ => 0) (fun _ => []) 3 .earnings).1 rfl,
   (extractor_topk_stable (fun _ => 0) fiveThemes 5 .earnings).2.2⟩

/-- Witness for C10: the five-article bucket renders 1 + 7 * 3 = 22 lines. -/
theorem renderer_caps_three_witness :
    (newsThemeSection ThemeLabel.earnings fiveArts).length
      = 1 + 7 * min 3 fiveArts.length :=
  renderer_caps_three.2.1 ThemeLabel.earnings fiveArts

end MarketRecap
